import Mathlib

/-!
Shallow embedding of the clipboard-history engine of
`src/commands/clipboard/list.rs` (capture loop, dedup, record model,
delete and prune paths), together with theorems settling the frozen
claims about its specification.

Conventions of the embedding:
* Rust `String` / `&str` values are modelled as `List Char` (a list of
  Unicode scalar values, exactly what Rust's `chars()` iterates over);
  byte-level operations (`len`, `truncate`) are modelled through the
  UTF-8 size of each scalar (`Char.utf8Size`, identical to Rust's
  `char::len_utf8`).
* `u64` values are modelled as `Nat` reduced `% 2 ^ 64` wherever Rust
  arithmetic wraps.
* Timestamps (`OffsetDateTime`) are modelled as `Int`; each call of
  `OffsetDateTime::now_utc()` in the source corresponds to one explicit
  time parameter, passed in source order.
* Operations that can panic are modelled with `Option` (`none` = panic).
* The bonsaidb collections (keyed by `#[natural_id]`) are modelled as
  lists of records; `get` is `find?` on the id, `update` replaces the
  record with the matching id, `push_into` appends.  Storage operations
  are assumed to succeed except in the delete path, where the claims are
  about failure propagation and failures are injected explicitly.
-/

namespace Loungy

/-! ## Rust character / string primitives -/

/-- Unicode `White_Space` property, the predicate behind Rust's
`char::is_whitespace`, `str::trim` and `str::split_whitespace`. -/
def rustIsWhitespace (c : Char) : Bool :=
  decide ((0x09 ≤ c.toNat ∧ c.toNat ≤ 0x0D) ∨ c.toNat = 0x20 ∨ c.toNat = 0x85 ∨
    c.toNat = 0xA0 ∨ c.toNat = 0x1680 ∨ (0x2000 ≤ c.toNat ∧ c.toNat ≤ 0x200A) ∨
    c.toNat = 0x2028 ∨ c.toNat = 0x2029 ∨ c.toNat = 0x202F ∨ c.toNat = 0x205F ∨
    c.toNat = 0x3000)

/-- UTF-8 byte length of a string, Rust's `str::len`. -/
def byteLen (cs : List Char) : Nat :=
  (cs.map Char.utf8Size).sum

/-- Rust `str::trim`: drop leading and trailing `White_Space` scalars. -/
def rustTrim (cs : List Char) : List Char :=
  ((cs.dropWhile rustIsWhitespace).reverse.dropWhile rustIsWhitespace).reverse

/-- Rust `str::replace("\n", " ")`: the pattern is a single scalar, so the
replacement is a scalar-wise map. -/
def replaceNewlines (cs : List Char) : List Char :=
  cs.map fun c => if c = '\n' then ' ' else c

/-- Rust `String::truncate (n)` keeps the prefix of `n` bytes.  If `n` is
not on a character boundary the call panics (`none`); if `n` is at least
the byte length the string is kept whole. -/
def takeBytes : Nat → List Char → Option (List Char)
  | 0, _ => some []
  | _ + 1, [] => some []
  | n + 1, c :: cs =>
      if c.utf8Size ≤ n + 1 then (takeBytes (n + 1 - c.utf8Size) cs).map (c :: ·)
      else none

/-- Rust `str::split_whitespace().count()`: the number of maximal runs of
non-`White_Space` scalars. -/
def splitWhitespaceCount (cs : List Char) : Nat :=
  (cs.foldl
    (fun (p : Bool × Nat) c =>
      if rustIsWhitespace c then (false, p.2)
      else if p.1 then (true, p.2) else (true, p.2 + 1))
    (false, 0)).2

/-- The display-title construction of the capture loop's text branch
(lines 561–566 of `list.rs`):
`let mut text = text.trim().replace("\n", " ");
 if text.len() > 25 { text.truncate(25); text.push_str("..."); }`.
The byte-length test and byte-indexed `truncate` are Rust's; `truncate`
panics (`none`) when byte 25 is not a character boundary. -/
def mkTitle (text : List Char) : Option (List Char) :=
  let t := replaceNewlines (rustTrim text)
  if byteLen t > 25 then (takeBytes 25 t).map (· ++ ['.', '.', '.'])
  else some t

/-! ## The fingerprint: `DefaultHasher`, i.e. SipHash-1-3 with fixed keys

`std::collections::hash_map::DefaultHasher::new()` constructs
`SipHasher13::new_with_keys(0, 0)`: the keys are the fixed constants
`0, 0`, not the per-process random state used by `RandomState`. -/

/-- Reduce to 64 bits (wrapping `u64` arithmetic). -/
def wrap64 (x : Nat) : Nat := x % 2 ^ 64

/-- 64-bit rotate left of a value `< 2 ^ 64`. -/
def rotl64 (x n : Nat) : Nat := wrap64 (x <<< n) ||| (x >>> (64 - n))

/-- The four 64-bit words of the SipHash internal state. -/
structure SipState where
  v0 : Nat
  v1 : Nat
  v2 : Nat
  v3 : Nat
deriving DecidableEq

/-- One SipRound. -/
def sipRound (s : SipState) : SipState :=
  let v0 := wrap64 (s.v0 + s.v1)
  let v1 := rotl64 s.v1 13
  let v1 := v1 ^^^ v0
  let v0 := rotl64 v0 32
  let v2 := wrap64 (s.v2 + s.v3)
  let v3 := rotl64 s.v3 16
  let v3 := v3 ^^^ v2
  let v0 := wrap64 (v0 + v3)
  let v3 := rotl64 v3 21
  let v3 := v3 ^^^ v0
  let v2 := wrap64 (v2 + v1)
  let v1 := rotl64 v1 17
  let v1 := v1 ^^^ v2
  let v2 := rotl64 v2 32
  ⟨v0, v1, v2, v3⟩

/-- Compression of one 8-byte message word (SipHash-1-3: one round). -/
def sipCompress (s : SipState) (m : Nat) : SipState :=
  let s := { s with v3 := s.v3 ^^^ m }
  let s := sipRound s
  { s with v0 := s.v0 ^^^ m }

/-- Little-endian word value of a byte list (first byte least significant). -/
def leWord (bs : List Nat) : Nat :=
  bs.foldr (fun b acc => b + 256 * acc) 0

/-- Finalization: the last (partial) block carries `totalLen % 256` in its
top byte; then `v2 ^= 0xff` and three SipRounds. -/
def sipFinish (s : SipState) (totalLen : Nat) (rest : List Nat) : Nat :=
  let m := leWord rest + wrap64 ((totalLen % 256) <<< 56)
  let s := sipCompress s m
  let s := { s with v2 := s.v2 ^^^ 0xff }
  let s := sipRound (sipRound (sipRound s))
  s.v0 ^^^ s.v1 ^^^ s.v2 ^^^ s.v3

/-- Process the message stream in 8-byte little-endian words. -/
def sipBlocks (s : SipState) (totalLen : Nat) : List Nat → Nat
  | b0 :: b1 :: b2 :: b3 :: b4 :: b5 :: b6 :: b7 :: rest =>
      sipBlocks (sipCompress s (leWord [b0, b1, b2, b3, b4, b5, b6, b7])) totalLen rest
  | rest => sipFinish s totalLen rest

/-- SipHash-1-3 of a byte stream under keys `k0, k1`. -/
def sipHash13 (k0 k1 : Nat) (msg : List Nat) : Nat :=
  sipBlocks
    ⟨k0 ^^^ 0x736f6d6570736575, k1 ^^^ 0x646f72616e646f6d,
     k0 ^^^ 0x6c7967656e657261, k1 ^^^ 0x7465646279746573⟩
    msg.length msg

/-- UTF-8 encoding of one Unicode scalar (Rust's `char::encode_utf8`). -/
def utf8EncodeChar (c : Char) : List Nat :=
  let n := c.toNat
  if n < 0x80 then [n]
  else if n < 0x800 then [0xC0 + n / 0x40, 0x80 + n % 0x40]
  else if n < 0x10000 then
    [0xE0 + n / 0x1000, 0x80 + n / 0x40 % 0x40, 0x80 + n % 0x40]
  else
    [0xF0 + n / 0x40000, 0x80 + n / 0x1000 % 0x40, 0x80 + n / 0x40 % 0x40,
     0x80 + n % 0x40]

/-- The UTF-8 byte stream of a string. -/
def strBytes (cs : List Char) : List Nat :=
  cs.flatMap utf8EncodeChar

/-- The per-process random state that `RandomState` would feed a hasher.
`DefaultHasher::new()` does not consume it. -/
structure ProcessSeed where
  k0 : Nat
  k1 : Nat
deriving DecidableEq

/-- Fingerprint of clipboard text, lines 545–547 of `list.rs`:
`Hash for str` feeds the UTF-8 bytes followed by the `0xff` delimiter
into `DefaultHasher::new()`, whose keys are the fixed pair `(0, 0)`. -/
def textFingerprint (cs : List Char) : Nat :=
  sipHash13 0 0 (strBytes cs ++ [0xff])

/-- Little-endian 8-byte encoding of a `usize` length. -/
def leLen8 (n : Nat) : List Nat :=
  [n % 256, n >>> 8 % 256, n >>> 16 % 256, n >>> 24 % 256,
   n >>> 32 % 256, n >>> 40 % 256, n >>> 48 % 256, n >>> 56 % 256]

/-- Fingerprint of clipboard image bytes, lines 583–585 of `list.rs`:
`Hash for [u8]` feeds the length prefix and then the raw bytes. -/
def bytesFingerprint (bs : List Nat) : Nat :=
  sipHash13 0 0 (leLen8 bs.length ++ bs)

/-- The text fingerprint as computed inside one particular process run.
The seed models the process-wide random state available to that run; the
source constructs `DefaultHasher::new()`, which ignores it. -/
def textFingerprintInRun (_seed : ProcessSeed) (cs : List Char) : Nat :=
  textFingerprint cs

/-- The image fingerprint as computed inside one particular process run. -/
def bytesFingerprintInRun (_seed : ProcessSeed) (bs : List Nat) : Nat :=
  bytesFingerprint bs

/-! ## Data model: the two record collections -/

/-- A file-system path: a directory (list of components) plus a file name.
`path.pop()` drops the file name; `dir.join(name)` attaches one. -/
structure FsPath where
  dir : List (List Char)
  file : List Char
deriving DecidableEq

/-- `<id>.png`, the file name of the full image asset. -/
def pngName (id : Nat) : List Char :=
  Nat.toDigits 10 id ++ ['.', 'p', 'n', 'g']

/-- `<id>.thumb.png`, the file name of the thumbnail asset. -/
def thumbPngName (id : Nat) : List Char :=
  Nat.toDigits 10 id ++ ['.', 't', 'h', 'u', 'm', 'b', '.', 'p', 'n', 'g']

/-- `ClipboardKind` (lines 107–120): the full content payload of an entry. -/
inductive ClipboardKind where
  | Text (characters : Nat) (words : Nat) (text : List Char)
  | Image (width : Nat) (height : Nat) (thumbnail : FsPath) (path : FsPath)
deriving DecidableEq

/-- `ClipboardListItemKind` (lines 132–136): the lightweight kind tag kept
on the list record. -/
inductive ClipboardListItemKind where
  | Text
  | Image (thumbnail : FsPath)
deriving DecidableEq

/-- `impl Into<ClipboardListItemKind> for ClipboardKind` (lines 138–145). -/
def ClipboardKind.toListKind : ClipboardKind → ClipboardListItemKind
  | .Text .. => .Text
  | .Image _ _ thumbnail _ => .Image thumbnail

/-- `ClipboardDetail` (lines 122–130): the heavy per-entry record, keyed
by the fingerprint as natural id. -/
structure ClipboardDetail where
  id : Nat
  application : List Char
  application_icon : Option FsPath
  kind : ClipboardKind
deriving DecidableEq

/-- `ClipboardListItem` (lines 156–168): the lightweight list record,
keyed by the fingerprint as natural id. -/
structure ClipboardListItem where
  id : Nat
  title : List Char
  copied_first : Int
  copied_last : Int
  kind : ClipboardListItemKind
  copy_count : Nat
deriving DecidableEq

/-- The frontmost-application data resolved (best effort) at capture
time by the external application-identification collaborator. -/
structure AppInfo where
  name : List Char
  icon : Option FsPath
deriving DecidableEq

/-- `ClipboardListItem::new` (lines 171–204), list-record part.  The
source initializes the fields in declaration order: `copied_last` is set
from the FIRST `OffsetDateTime::now_utc()` call (`tLast`) and
`copied_first` from the SECOND (`tFirst`); `copy_count` starts at 1. -/
def mkListItem (id : Nat) (tLast tFirst : Int) (title : List Char)
    (kind : ClipboardKind) : ClipboardListItem :=
  { id := id, title := title, copied_first := tFirst, copied_last := tLast,
    copy_count := 1, kind := kind.toListKind }

/-- `ClipboardListItem::new`, detail-record part (lines 195–201). -/
def mkDetail (id : Nat) (app : AppInfo) (kind : ClipboardKind) : ClipboardDetail :=
  { id := id, application := app.name, application_icon := app.icon, kind := kind }

/-! ## Capture-loop state and the text tick -/

/-- The mutable state of the capture loop: the `last_hash` register
(line 526, `let mut hash: u64 = 0`) plus the two record collections. -/
structure CaptureState where
  hashReg : Nat
  items : List ClipboardListItem
  details : List ClipboardDetail
deriving DecidableEq

/-- The state at loop start: register `0`, storage as found on disk
(empty for a fresh install). -/
def initialState : CaptureState := ⟨0, [], []⟩

/-- `ClipboardListItem::get(&id, db_items())`: lookup by natural id. -/
def findItem (items : List ClipboardListItem) (id : Nat) : Option ClipboardListItem :=
  items.find? fun r => decide (r.id = id)

/-- Number of stored list records carrying a given id. -/
def countId : List ClipboardListItem → Nat → Nat
  | [], _ => 0
  | r :: rs, id => (if r.id = id then 1 else 0) + countId rs id

/-- `item.update(db_items())`: replace the stored document with this id. -/
def updateItem (items : List ClipboardListItem) (r : ClipboardListItem) :
    List ClipboardListItem :=
  items.map fun x => if x.id = r.id then r else x

/-- One iteration of the capture loop's text branch (lines 544–581),
parametric in the already-computed fingerprint `fp` (the code computes
it on lines 545–547 and then only compares/stores it).  `t1` is the
first `now_utc()` sample of the tick and `t2` the second (the creation
path samples twice, the re-copy path once).  Storage operations are
assumed to succeed; `none` means the tick panicked. -/
def textTickCore (fp : Nat) (t1 t2 : Int) (app : AppInfo) (text : List Char)
    (s : CaptureState) : Option CaptureState :=
  if fp = s.hashReg then some s
  else
    let s := { s with hashReg := fp }
    match findItem s.items fp with
    | some item =>
        let item := { item with copied_last := t1, copy_count := item.copy_count + 1 }
        some { s with items := updateItem s.items item }
    | none =>
        match mkTitle text with
        | none => none
        | some title =>
            let kind := ClipboardKind.Text text.length (splitWhitespaceCount text) text
            some { s with
              items := s.items ++ [mkListItem fp t1 t2 title kind],
              details := s.details ++ [mkDetail fp app kind] }

/-- One text tick with the fingerprint computed from the content. -/
def textTick (t1 t2 : Int) (app : AppInfo) (text : List Char)
    (s : CaptureState) : Option CaptureState :=
  textTickCore (textFingerprint text) t1 t2 app text s

/-- A sequence of text ticks; a panic in any tick kills the loop. -/
def runTicks : List (Int × Int × AppInfo × List Char) → CaptureState →
    Option CaptureState
  | [], s => some s
  | p :: ps, s =>
      match textTick p.1 p.2.1 p.2.2.1 p.2.2.2 s with
      | none => none
      | some s => runTicks ps s

/-! ## The delete path, `ClipboardListItem::delete` (lines 280–301)

The environment injects success/failure of each fallible sub-operation
so the propagation structure of the source (which sub-results are hit
with `?` and which are discarded with `let _ =`) can be stated. -/

/-- Which sub-operations of one `delete` call succeed. -/
structure DeleteEnv where
  notifyOk : Bool
  detailGetOk : Bool
  detailDeleteOk : Bool
  itemGetOk : Bool
  itemDeleteOk : Bool
  removeThumbOk : Bool
  removeFullOk : Bool
deriving DecidableEq

/-- Every sub-operation succeeds. -/
def envAllOk : DeleteEnv := ⟨true, true, true, true, true, true, true⟩

/-- Which sub-steps of one `delete` call were reached at all. -/
structure DeleteTrace where
  notifyAttempted : Bool
  detailDeleteAttempted : Bool
  itemDeleteAttempted : Bool
  thumbRemoveAttempted : Bool
  fullRemoveAttempted : Bool
deriving DecidableEq

/-- Result of one `delete` call: the storage state after it, the asset
files actually removed from disk, the sub-steps reached, and whether the
call returned `Ok(())`. -/
structure DeleteOutcome where
  state : CaptureState
  removedFiles : List FsPath
  trace : DeleteTrace
  ok : Bool
deriving DecidableEq

/-- Lines 291–299: the asset-file sub-step.  Only reached for image
entries; both `std::fs::remove_file` results are discarded (`let _ =`),
so neither failure affects the other call or the function result.  The
full-image path is rebuilt from the thumbnail's directory and the id
(`path.pop(); path.join(format!(".png", id))`). -/
def deleteFilesStep (env : DeleteEnv) (item : ClipboardListItem)
    (st : CaptureState) (tr : DeleteTrace) : DeleteOutcome :=
  match item.kind with
  | .Image thumbnail =>
      let tr := { tr with thumbRemoveAttempted := true, fullRemoveAttempted := true }
      let fullPath : FsPath := ⟨thumbnail.dir, pngName item.id⟩
      let files := (if env.removeThumbOk then [thumbnail] else []) ++
        (if env.removeFullOk then [fullPath] else [])
      ⟨st, files, tr, true⟩
  | .Text => ⟨st, [], tr, true⟩

/-- Lines 288–290: `if let Some(item) = Self::get(&self.id, db_items())? {
item.delete(db_items())?; }` — both the get and the delete propagate
failure with `?`, so a failure here returns early and the file sub-step
is never reached. -/
def deleteItemStep (env : DeleteEnv) (item : ClipboardListItem)
    (st : CaptureState) (tr : DeleteTrace) : DeleteOutcome :=
  if !env.itemGetOk then ⟨st, [], tr, false⟩
  else
    match findItem st.items item.id with
    | some _ =>
        let tr := { tr with itemDeleteAttempted := true }
        if !env.itemDeleteOk then ⟨st, [], tr, false⟩
        else
          deleteFilesStep env item
            { st with items := st.items.filter fun r => !decide (r.id = item.id) } tr
    | none => deleteFilesStep env item st tr

/-- `ClipboardListItem::delete` (lines 280–301).  Step 1 notifies the UI
view (line 281–283, result discarded); step 2 gets and deletes the
`ClipboardDetail`, each fallible call hit with `?` (lines 285–287); step
3 does the same for the `ClipboardListItem` (lines 288–290); step 4
removes the two asset files for image entries (lines 291–299). -/
def deleteModel (env : DeleteEnv) (item : ClipboardListItem)
    (st : CaptureState) : DeleteOutcome :=
  let tr : DeleteTrace := ⟨true, false, false, false, false⟩
  if !env.detailGetOk then ⟨st, [], tr, false⟩
  else
    match st.details.find? (fun d => decide (d.id = item.id)) with
    | some _ =>
        let tr := { tr with detailDeleteAttempted := true }
        if !env.detailDeleteOk then ⟨st, [], tr, false⟩
        else
          deleteItemStep env item
            { st with details := st.details.filter fun d => !decide (d.id = item.id) } tr
    | none => deleteItemStep env item st tr

/-! ## The prune path, `ClipboardListItem::prune` (lines 302–314) -/

/-- One iteration of the prune scan: delete the snapshot entry if
`item.copied_last < now - age` (line 309); the delete result is
discarded (`let _ =`, line 310).  The deletes themselves are modelled on
the success path (`envAllOk`). -/
def pruneStep (age now : Int) (acc : CaptureState × List FsPath)
    (item : ClipboardListItem) : CaptureState × List FsPath :=
  if item.copied_last < now - age then
    let o := deleteModel envAllOk item acc.1
    (o.state, acc.2 ++ o.removedFiles)
  else acc

/-- `ClipboardListItem::prune(age)`: query a snapshot of all list
records, then run the per-item scan over it.  The source resamples
`OffsetDateTime::now_utc()` at every iteration; `now` models the clock
value during the scan. -/
def pruneModel (age now : Int) (st : CaptureState) : CaptureState × List FsPath :=
  st.items.foldl (pruneStep age now) (st, [])

/-! ## Helper lemmas on the storage model -/

theorem countId_eq_zero {items : List ClipboardListItem} {id : Nat} :
    countId items id = 0 ↔ ∀ r ∈ items, r.id ≠ id := by
  induction items with
  | nil => simp [countId]
  | cons x xs ih => by_cases hx : x.id = id <;> simp [countId, hx, ih]

theorem findItem_eq_none {items : List ClipboardListItem} {id : Nat}
    (h : countId items id = 0) : findItem items id = none := by
  rw [findItem, List.find?_eq_none]
  intro x hx
  simpa using countId_eq_zero.mp h x hx

theorem countId_append (xs ys : List ClipboardListItem) (id : Nat) :
    countId (xs ++ ys) id = countId xs id + countId ys id := by
  induction xs with
  | nil => simp [countId]
  | cons x xs ih => simp [countId, ih, Nat.add_assoc]

theorem findItem_append (xs ys : List ClipboardListItem) (id : Nat) :
    findItem (xs ++ ys) id = (findItem xs id).or (findItem ys id) := by
  simp [findItem, List.find?_append]

theorem countId_updateItem (items : List ClipboardListItem) (r : ClipboardListItem)
    (id : Nat) (h : r.id = id) :
    countId (updateItem items r) id = countId items id := by
  induction items with
  | nil => rfl
  | cons x xs ih =>
      simp only [updateItem, List.map_cons, countId] at ih ⊢
      by_cases hx : x.id = r.id
      · simp only [if_pos hx, if_pos h, if_pos (hx.trans h), ih]
      · simp only [if_neg hx, ih]

theorem findItem_updateItem_ne (items : List ClipboardListItem)
    (r : ClipboardListItem) (id : Nat) (h : r.id ≠ id) :
    findItem (updateItem items r) id = findItem items id := by
  induction items with
  | nil => rfl
  | cons x xs ih =>
      simp only [updateItem, List.map_cons, findItem] at ih ⊢
      by_cases hx : x.id = r.id
      · rw [if_pos hx, List.find?_cons_of_neg _ (by simpa using h),
          List.find?_cons_of_neg _ (by simp [hx, h]), ih]
      · by_cases hxi : x.id = id
        · rw [if_neg hx, List.find?_cons_of_pos _ (by simpa using hxi),
            List.find?_cons_of_pos _ (by simpa using hxi)]
        · rw [if_neg hx, List.find?_cons_of_neg _ (by simpa using hxi),
            List.find?_cons_of_neg _ (by simpa using hxi), ih]

theorem findItem_updateItem_eq (items : List ClipboardListItem)
    (r : ClipboardListItem) (id : Nat) (h : r.id = id)
    (hsome : (findItem items id).isSome) :
    findItem (updateItem items r) id = some r := by
  induction items with
  | nil => simp [findItem] at hsome
  | cons x xs ih =>
      simp only [updateItem, List.map_cons, findItem] at ih hsome ⊢
      by_cases hx : x.id = id
      · rw [if_pos (hx.trans h.symm), List.find?_cons_of_pos _ (by simpa using h)]
      · rw [if_neg (fun hc => hx (hc.trans h)),
          List.find?_cons_of_neg _ (by simpa using hx)]
        rw [List.find?_cons_of_neg _ (by simpa using hx)] at hsome
        exact ih hsome

theorem countId_updateItem_ne (items : List ClipboardListItem)
    (r : ClipboardListItem) (id : Nat) (h : r.id ≠ id) :
    countId (updateItem items r) id = countId items id := by
  induction items with
  | nil => rfl
  | cons x xs ih =>
      simp only [updateItem, List.map_cons, countId] at ih ⊢
      by_cases hx : x.id = r.id
      · simp only [if_pos hx, ih, if_neg h, if_neg (fun hc => h (hx.symm.trans hc))]
      · simp only [if_neg hx, ih]

theorem findItem_id {items : List ClipboardListItem} {id : Nat}
    {r : ClipboardListItem} (h : findItem items id = some r) : r.id = id := by
  simpa using List.find?_some h

theorem textTickCore_skip (fp : Nat) (t1 t2 : Int) (ap : AppInfo) (c : List Char)
    (s : CaptureState) (h : fp = s.hashReg) :
    textTickCore fp t1 t2 ap c s = some s := by
  simp [textTickCore, h]

theorem textTickCore_update (fp : Nat) (t1 t2 : Int) (ap : AppInfo) (c : List Char)
    (s : CaptureState) (item : ClipboardListItem) (h : fp ≠ s.hashReg)
    (hf : findItem s.items fp = some item) :
    textTickCore fp t1 t2 ap c s =
      some ⟨fp,
        updateItem s.items
          { item with copied_last := t1, copy_count := item.copy_count + 1 },
        s.details⟩ := by
  simp [textTickCore, h, hf]

theorem textTickCore_create (fp : Nat) (t1 t2 : Int) (ap : AppInfo) (c : List Char)
    (s : CaptureState) (ttl : List Char) (h : fp ≠ s.hashReg)
    (hf : findItem s.items fp = none) (ht : mkTitle c = some ttl) :
    textTickCore fp t1 t2 ap c s =
      some ⟨fp,
        s.items ++ [mkListItem fp t1 t2 ttl
          (ClipboardKind.Text c.length (splitWhitespaceCount c) c)],
        s.details ++ [mkDetail fp ap
          (ClipboardKind.Text c.length (splitWhitespaceCount c) c)]⟩ := by
  simp [textTickCore, h, hf, ht]

theorem runTicks_same_content (c : List Char) (s : CaptureState)
    (h : textFingerprint c = s.hashReg) (ps : List (Int × Int × AppInfo)) :
    runTicks (ps.map fun p => (p.1, p.2.1, p.2.2, c)) s = some s := by
  induction ps with
  | nil => rfl
  | cons p ps ih => simp [runTicks, textTick, textTickCore, h, ih]

/-! ## Claim theorems -/

/-- C1: when the same text content stays on the clipboard across
consecutive ticks with no intervening change, the capture loop processes
it only on the first tick: that tick creates the single list record for
the content (`copy_count = 1`, `copied_last` = the tick's first clock
sample), and every later tick with the same content leaves the state
exactly as the first tick left it — the `fingerprint == last_hash` guard
skips them all. -/
theorem dedup_idempotent_capture (t1 t2 : Int) (ap : AppInfo) (c ttl : List Char)
    (s0 : CaptureState) (reps : List (Int × Int × AppInfo))
    (hreg : textFingerprint c ≠ s0.hashReg)
    (hnew : countId s0.items (textFingerprint c) = 0)
    (httl : mkTitle c = some ttl) :
    ∃ s1, textTick t1 t2 ap c s0 = some s1 ∧
      runTicks (reps.map fun p => (p.1, p.2.1, p.2.2, c)) s1 = some s1 ∧
      countId s1.items (textFingerprint c) = 1 ∧
      ∃ r, findItem s1.items (textFingerprint c) = some r ∧
        r.copy_count = 1 ∧ r.copied_last = t1 ∧ r.copied_first = t2 := by
  have hfind := findItem_eq_none hnew
  refine ⟨⟨textFingerprint c,
    s0.items ++ [mkListItem (textFingerprint c) t1 t2 ttl
      (ClipboardKind.Text c.length (splitWhitespaceCount c) c)],
    s0.details ++ [mkDetail (textFingerprint c) ap
      (ClipboardKind.Text c.length (splitWhitespaceCount c) c)]⟩, ?_, ?_, ?_, ?_⟩
  · simp [textTick, textTickCore, hreg, hfind, httl]
  · exact runTicks_same_content c _ rfl _
  · rw [countId_append, hnew]
    simp [countId, mkListItem]
  · refine ⟨mkListItem (textFingerprint c) t1 t2 ttl
      (ClipboardKind.Text c.length (splitWhitespaceCount c) c), ?_, rfl, rfl, rfl⟩
    rw [findItem_append, hfind]
    simp [findItem, mkListItem]

/-- C1 witness: a concrete run — capture `"hello"` at times (3, 4) from
the fresh state, then observe it again on a later tick. -/
theorem dedup_idempotent_capture_witness :
    textFingerprint "hello".toList ≠ initialState.hashReg ∧
    ∃ s1, textTick 3 4 ⟨[], none⟩ "hello".toList initialState = some s1 ∧
      runTicks ([((5 : Int), (6 : Int), (⟨[], none⟩ : AppInfo))].map
        fun p => (p.1, p.2.1, p.2.2, "hello".toList)) s1 = some s1 ∧
      countId s1.items (textFingerprint "hello".toList) = 1 ∧
      ∃ r, findItem s1.items (textFingerprint "hello".toList) = some r ∧
        r.copy_count = 1 ∧ r.copied_last = 3 ∧ r.copied_first = 4 :=
  ⟨by decide,
    dedup_idempotent_capture 3 4 ⟨[], none⟩ "hello".toList "hello".toList
      initialState [(5, 6, ⟨[], none⟩)] (by decide) (by decide) (by decide)⟩

/-- C2: capturing content `A`, then `B`, then `A` again (with distinct
fingerprints) leaves exactly one list record for `A`: its `copy_count`
is 2, its `copied_last` is the clock sample of the third tick (the
second capture of `A`), and its `copied_first` is unchanged from the
first capture — the re-copy path goes through the keyed upsert and never
adds a second record. -/
theorem recopy_update_aba (ta1 ta2 tb1 tb2 tc1 tc2 : Int)
    (apA apB apC : AppInfo) (A B ttlA : List Char) (s0 : CaptureState)
    (hAB : textFingerprint A ≠ textFingerprint B)
    (hreg : textFingerprint A ≠ s0.hashReg)
    (hnew : countId s0.items (textFingerprint A) = 0)
    (httl : mkTitle A = some ttlA)
    (hB : findItem s0.items (textFingerprint B) = none → (mkTitle B).isSome) :
    ∃ s3, runTicks [(ta1, ta2, apA, A), (tb1, tb2, apB, B), (tc1, tc2, apC, A)] s0 =
        some s3 ∧
      countId s3.items (textFingerprint A) = 1 ∧
      ∃ r, findItem s3.items (textFingerprint A) = some r ∧
        r.copy_count = 2 ∧ r.copied_last = tc1 ∧ r.copied_first = ta2 := by
  have hfind := findItem_eq_none hnew
  have hBA : textFingerprint B ≠ textFingerprint A := fun hc => hAB hc.symm
  let kA := ClipboardKind.Text A.length (splitWhitespaceCount A) A
  let itemA := mkListItem (textFingerprint A) ta1 ta2 ttlA kA
  let s1 : CaptureState :=
    ⟨textFingerprint A, s0.items ++ [itemA],
     s0.details ++ [mkDetail (textFingerprint A) apA kA]⟩
  have h1 : textTick ta1 ta2 apA A s0 = some s1 :=
    textTickCore_create _ ta1 ta2 apA A s0 ttlA hreg hfind httl
  have hidA : itemA.id = textFingerprint A := rfl
  have hfindA1 : findItem s1.items (textFingerprint A) = some itemA := by
    show findItem (s0.items ++ [itemA]) (textFingerprint A) = some itemA
    rw [findItem_append, hfind]
    simp [findItem, itemA, mkListItem]
  have hcount1 : countId s1.items (textFingerprint A) = 1 := by
    show countId (s0.items ++ [itemA]) (textFingerprint A) = 1
    rw [countId_append, hnew]
    simp [countId, itemA, mkListItem]
  -- the second tick processes B and touches only records keyed by B's id
  have hBreg : textFingerprint B ≠ s1.hashReg := hBA
  obtain ⟨s2, h2, hs2reg, hfindA2, hcount2⟩ :
      ∃ s2, textTick tb1 tb2 apB B s1 = some s2 ∧
        s2.hashReg = textFingerprint B ∧
        findItem s2.items (textFingerprint A) = some itemA ∧
        countId s2.items (textFingerprint A) = 1 := by
    cases hfB : findItem s1.items (textFingerprint B) with
    | some itemB =>
        have hidB : itemB.id = textFingerprint B := findItem_id hfB
        have hidB' : itemB.id ≠ textFingerprint A := fun hc => hBA (hidB ▸ hc)
        refine ⟨_, textTickCore_update _ tb1 tb2 apB B s1 itemB hBreg hfB, rfl,
          ?_, ?_⟩
        · show findItem (updateItem s1.items _) (textFingerprint A) = some itemA
          rw [findItem_updateItem_ne s1.items
            { itemB with copied_last := tb1, copy_count := itemB.copy_count + 1 }
            (textFingerprint A) hidB', hfindA1]
        · show countId (updateItem s1.items _) (textFingerprint A) = 1
          rw [countId_updateItem_ne s1.items
            { itemB with copied_last := tb1, copy_count := itemB.copy_count + 1 }
            (textFingerprint A) hidB', hcount1]
    | none =>
        have hfB0 : findItem s0.items (textFingerprint B) = none := by
          have : findItem (s0.items ++ [itemA]) (textFingerprint B) = none := hfB
          rw [findItem_append] at this
          cases hf0 : findItem s0.items (textFingerprint B) with
          | none => rfl
          | some v => rw [hf0] at this; simp at this
        obtain ⟨ttlB, httlB⟩ := Option.isSome_iff_exists.mp (hB hfB0)
        refine ⟨_, textTickCore_create _ tb1 tb2 apB B s1 ttlB hBreg hfB httlB,
          rfl, ?_, ?_⟩
        · show findItem (s1.items ++ [mkListItem (textFingerprint B) tb1 tb2 ttlB _])
            (textFingerprint A) = some itemA
          rw [findItem_append, hfindA1]
          rfl
        · show countId (s1.items ++ [mkListItem (textFingerprint B) tb1 tb2 ttlB _])
            (textFingerprint A) = 1
          rw [countId_append, hcount1]
          simp [countId, mkListItem, hBA]
  -- the third tick re-copies A through the upsert path
  have hCreg : textFingerprint A ≠ s2.hashReg := by rw [hs2reg]; exact hAB
  have h3 : textTick tc1 tc2 apC A s2 =
      some ⟨textFingerprint A,
        updateItem s2.items
          { itemA with copied_last := tc1, copy_count := itemA.copy_count + 1 },
        s2.details⟩ :=
    textTickCore_update _ tc1 tc2 apC A s2 itemA hCreg hfindA2
  refine ⟨⟨textFingerprint A,
    updateItem s2.items
      { itemA with copied_last := tc1, copy_count := itemA.copy_count + 1 },
    s2.details⟩, ?_, ?_, ?_⟩
  · simp [runTicks, h1, h2, h3]
  · show countId (updateItem s2.items _) (textFingerprint A) = 1
    rw [countId_updateItem s2.items
      { itemA with copied_last := tc1, copy_count := itemA.copy_count + 1 }
      (textFingerprint A) hidA, hcount2]
  · refine ⟨{ itemA with copied_last := tc1, copy_count := itemA.copy_count + 1 },
      ?_, rfl, rfl, rfl⟩
    show findItem (updateItem s2.items _) (textFingerprint A) = _
    exact findItem_updateItem_eq s2.items
      { itemA with copied_last := tc1, copy_count := itemA.copy_count + 1 }
      (textFingerprint A) hidA (by rw [hfindA2]; rfl)

/-- C2 witness: the concrete capture sequence `"a"`, `"b"`, `"a"` at
times 1..6 starting from the fresh state. -/
theorem recopy_update_aba_witness :
    textFingerprint "a".toList ≠ textFingerprint "b".toList ∧
    ∃ s3, runTicks [((1 : Int), (2 : Int), (⟨[], none⟩ : AppInfo), "a".toList),
        (3, 4, ⟨[], none⟩, "b".toList), (5, 6, ⟨[], none⟩, "a".toList)]
        initialState = some s3 ∧
      countId s3.items (textFingerprint "a".toList) = 1 ∧
      ∃ r, findItem s3.items (textFingerprint "a".toList) = some r ∧
        r.copy_count = 2 ∧ r.copied_last = 5 ∧ r.copied_first = 2 :=
  ⟨by decide,
    recopy_update_aba 1 2 3 4 5 6 ⟨[], none⟩ ⟨[], none⟩ ⟨[], none⟩
      "a".toList "b".toList "a".toList initialState (by decide) (by decide)
      (by decide) (by decide) (fun _ => by decide)⟩

/-- Concrete image entry (id 7) with its thumbnail path, detail record
and a store holding both, used in the C3 delete scenarios. -/
def c3Thumb : FsPath := ⟨[['c', 'a', 'c', 'h', 'e']], thumbPngName 7⟩

def c3Item : ClipboardListItem :=
  ⟨7, ['t'], 0, 0, .Image c3Thumb, 1⟩

def c3Detail : ClipboardDetail :=
  ⟨7, ['U'], none, .Image 2 2 c3Thumb ⟨[['c', 'a', 'c', 'h', 'e']], pngName 7⟩⟩

def c3State : CaptureState := ⟨0, [c3Item], [c3Detail]⟩

/-- C3 counterexample: the four delete sub-steps are not independent.
With every sub-operation succeeding except the `DetailRecord` deletion,
the `?` operator on `item.delete(db_detail())` returns early: the
`ListRecord` deletion and both file removals are never attempted, the
list record survives, and no file is removed. -/
theorem delete_not_best_effort_cex :
    (deleteModel ⟨true, true, false, true, true, true, true⟩ c3Item c3State).ok
        = false ∧
    (deleteModel ⟨true, true, false, true, true, true, true⟩ c3Item
        c3State).trace.detailDeleteAttempted = true ∧
    (deleteModel ⟨true, true, false, true, true, true, true⟩ c3Item
        c3State).trace.itemDeleteAttempted = false ∧
    (deleteModel ⟨true, true, false, true, true, true, true⟩ c3Item
        c3State).trace.thumbRemoveAttempted = false ∧
    (deleteModel ⟨true, true, false, true, true, true, true⟩ c3Item
        c3State).trace.fullRemoveAttempted = false ∧
    (deleteModel ⟨true, true, false, true, true, true, true⟩ c3Item
        c3State).state.items = [c3Item] ∧
    (deleteModel ⟨true, true, false, true, true, true, true⟩ c3Item
        c3State).removedFiles = [] := by
  decide

/-- C3 amended: in `delete(id)` only the UI notification and the two
asset-file removals are best-effort — the notification is always
attempted and its result never influences the rest, and when the record
sub-steps complete the two file removals of an image entry are attempted
regardless of each other's success and the call still returns `Ok`.  The
record sub-steps propagate failure instead: a storage error reading the
`DetailRecord`, or deleting a found one, aborts the `ListRecord`
deletion and the file removals; an error reading the `ListRecord` aborts
the file removals. -/
theorem delete_best_effort_amended (env : DeleteEnv) (item : ClipboardListItem)
    (st : CaptureState) :
    ((deleteModel env item st).trace.notifyAttempted = true) ∧
    (∀ b1 b2, deleteModel { env with notifyOk := b1 } item st =
      deleteModel { env with notifyOk := b2 } item st) ∧
    (env.detailGetOk = false → (deleteModel env item st).ok = false ∧
      (deleteModel env item st).trace.itemDeleteAttempted = false ∧
      (deleteModel env item st).trace.thumbRemoveAttempted = false ∧
      (deleteModel env item st).trace.fullRemoveAttempted = false) ∧
    (env.detailGetOk = true → env.detailDeleteOk = false →
      (st.details.find? fun d => decide (d.id = item.id)).isSome →
      (deleteModel env item st).ok = false ∧
      (deleteModel env item st).trace.itemDeleteAttempted = false ∧
      (deleteModel env item st).trace.thumbRemoveAttempted = false ∧
      (deleteModel env item st).trace.fullRemoveAttempted = false) ∧
    (env.detailGetOk = true → (env.detailDeleteOk = true) →
      env.itemGetOk = false → (deleteModel env item st).ok = false ∧
      (deleteModel env item st).trace.thumbRemoveAttempted = false ∧
      (deleteModel env item st).trace.fullRemoveAttempted = false) ∧
    (env.detailGetOk = true → env.detailDeleteOk = true →
      env.itemGetOk = true → env.itemDeleteOk = false →
      (findItem st.items item.id).isSome →
      (deleteModel env item st).ok = false ∧
      (deleteModel env item st).trace.itemDeleteAttempted = true ∧
      (deleteModel env item st).trace.thumbRemoveAttempted = false ∧
      (deleteModel env item st).trace.fullRemoveAttempted = false) ∧
    (env.detailGetOk = true → env.detailDeleteOk = true →
      env.itemGetOk = true → env.itemDeleteOk = true →
      (deleteModel env item st).ok = true ∧
      ∀ thumb, item.kind = .Image thumb →
        (deleteModel env item st).trace.thumbRemoveAttempted = true ∧
        (deleteModel env item st).trace.fullRemoveAttempted = true) := by
  refine ⟨?_, ?_, ?_, ?_, ?_, ?_, ?_⟩
  · simp only [deleteModel, deleteItemStep, deleteFilesStep]
    repeat' split
    all_goals rfl
  · intro b1 b2
    rfl
  · intro h
    simp [deleteModel, h]
  · intro h1 h2 hfound
    obtain ⟨d, hd⟩ := Option.isSome_iff_exists.mp hfound
    simp [deleteModel, h1, h2, hd]
  · intro h1 h2 h3
    simp only [deleteModel, deleteItemStep, deleteFilesStep, h1, h2, h3]
    repeat' split
    all_goals first | rfl | simp_all
  · intro h1 h2 h3 h4 hfound
    obtain ⟨it, hit⟩ := Option.isSome_iff_exists.mp hfound
    simp only [deleteModel, deleteItemStep, deleteFilesStep, h1, h2, h3, h4]
    repeat' split
    all_goals simp_all
  · intro h1 h2 h3 h4
    simp only [deleteModel, deleteItemStep, deleteFilesStep, h1, h2, h3, h4]
    repeat' split
    all_goals first | rfl | simp_all

/-- C3 amended witness: deleting the concrete image entry while both
file removals fail — every sub-step is still attempted and the call
returns `Ok`. -/
theorem delete_best_effort_amended_witness :
    (deleteModel ⟨true, true, true, true, true, false, false⟩ c3Item
        c3State).trace.notifyAttempted = true ∧
    (deleteModel ⟨true, true, true, true, true, false, false⟩ c3Item
        c3State).ok = true ∧
    (deleteModel ⟨true, true, true, true, true, false, false⟩ c3Item
        c3State).trace.thumbRemoveAttempted = true ∧
    (deleteModel ⟨true, true, true, true, true, false, false⟩ c3Item
        c3State).trace.fullRemoveAttempted = true := by
  have h := delete_best_effort_amended
    ⟨true, true, true, true, true, false, false⟩ c3Item c3State
  have h6 := h.2.2.2.2.2.2 rfl rfl rfl rfl
  exact ⟨h.1, h6.1, (h6.2 c3Thumb rfl).1, (h6.2 c3Thumb rfl).2⟩

/-- C4: the source of `ClipboardListItem::new` initializes `copied_last`
from the FIRST `now_utc()` sample and `copied_first` from the SECOND, so
whenever the clock advances between the two adjacent samples (first
sample 0, second sample 1 here) the freshly created record violates the
`copied_first <= copied_last` invariant; `copy_count` is 1. -/
theorem creation_timestamp_order_bug :
    (mkListItem 7 0 1 ['a'] (ClipboardKind.Text 1 1 ['a'])).copied_first = 1 ∧
    (mkListItem 7 0 1 ['a'] (ClipboardKind.Text 1 1 ['a'])).copied_last = 0 ∧
    ¬((mkListItem 7 0 1 ['a'] (ClipboardKind.Text 1 1 ['a'])).copied_first ≤
      (mkListItem 7 0 1 ['a'] (ClipboardKind.Text 1 1 ['a'])).copied_last) ∧
    (mkListItem 7 0 1 ['a'] (ClipboardKind.Text 1 1 ['a'])).copy_count = 1 := by
  refine ⟨rfl, rfl, ?_, rfl⟩
  decide

theorem replaceNewlines_id {c : List Char} (h : '\n' ∉ c) :
    replaceNewlines c = c := by
  induction c with
  | nil => rfl
  | cons x xs ih =>
      simp only [replaceNewlines, List.map_cons] at ih ⊢
      rw [List.mem_cons] at h
      push_neg at h
      rw [if_neg (fun hc => h.1 hc.symm), ih h.2]

theorem byteLen_eq_length {c : List Char} (h : ∀ ch ∈ c, ch.utf8Size = 1) :
    byteLen c = c.length := by
  induction c with
  | nil => rfl
  | cons x xs ih =>
      simp only [byteLen, List.map_cons, List.sum_cons, List.length_cons,
        h x (List.mem_cons_self x xs)] at ih ⊢
      rw [ih fun ch hch => h ch (List.mem_cons_of_mem x hch)]
      omega

theorem takeBytes_of_unit {c : List Char} (h : ∀ ch ∈ c, ch.utf8Size = 1)
    (n : Nat) : takeBytes n c = some (c.take n) := by
  induction c generalizing n with
  | nil => cases n <;> rfl
  | cons x xs ih =>
      cases n with
      | zero => rfl
      | succ m =>
          have hx : x.utf8Size = 1 := h x (List.mem_cons_self x xs)
          simp only [takeBytes, hx, List.take_succ_cons]
          rw [if_pos (by omega)]
          have hm : m + 1 - 1 = m := rfl
          rw [hm, ih (fun ch hch => h ch (List.mem_cons_of_mem x hch)) m]
          rfl

/-- C5 counterexample: the truncation threshold is the UTF-8 byte count,
not the character count.  The single-line text consisting of `a`
followed by thirteen `é` has 14 characters (at most 25), yet its 27-byte
UTF-8 form exceeds the 25-byte threshold, so the capture stores a
truncated title with the ellipsis marker instead of the text itself. -/
theorem title_truncation_chars_cex :
    ('a' :: List.replicate 13 'é').length ≤ 25 ∧
    ('a' :: (List.replicate 12 'é' ++ ['.', '.', '.'])) ≠
      ('a' :: List.replicate 13 'é') ∧
    (textTick 0 0 ⟨[], none⟩ ('a' :: List.replicate 13 'é') initialState).map
        (fun s =>
          (findItem s.items
            (textFingerprint ('a' :: List.replicate 13 'é'))).map
            fun r => r.title) =
      some (some ('a' :: (List.replicate 12 'é' ++ ['.', '.', '.']))) := by
  decide

/-- C5 amended: the 25-unit truncation threshold of the title is
measured in UTF-8 bytes, not characters.  For a single-line, trimmed
text: if every character is single-byte and the text has 40 characters,
the title is its first 25 characters followed by the three-dot marker
(28 characters in total); and any text of at most 25 bytes becomes the
title unmodified, with no marker. -/
theorem title_truncation_amended (c : List Char)
    (hnl : '\n' ∉ c) (htrim : rustTrim c = c) :
    ((∀ ch ∈ c, ch.utf8Size = 1) → c.length = 40 →
      mkTitle c = some (c.take 25 ++ ['.', '.', '.']) ∧
      (c.take 25 ++ ['.', '.', '.']).length = 28) ∧
    (byteLen c ≤ 25 → mkTitle c = some c) := by
  have hid : replaceNewlines (rustTrim c) = c := by
    rw [htrim, replaceNewlines_id hnl]
  constructor
  · intro hascii hlen
    have hbl : byteLen c = 40 := by rw [byteLen_eq_length hascii, hlen]
    constructor
    · simp only [mkTitle, hid, hbl]
      rw [if_pos (by omega), takeBytes_of_unit hascii]
      rfl
    · simp only [List.length_append, List.length_take, hlen]
      rfl
  · intro hb
    simp only [mkTitle, hid]
    rw [if_neg (by omega)]

/-- C5 amended witness: 40 `a`s are truncated to 25 plus the marker;
`hi` (2 bytes) is kept whole. -/
theorem title_truncation_amended_witness :
    mkTitle (List.replicate 40 'a') =
      some ((List.replicate 40 'a').take 25 ++ ['.', '.', '.']) ∧
    ((List.replicate 40 'a').take 25 ++ ['.', '.', '.']).length = 28 ∧
    mkTitle ['h', 'i'] = some ['h', 'i'] := by
  have h1 := title_truncation_amended (List.replicate 40 'a')
    (by decide) (by decide)
  have h2 := title_truncation_amended ['h', 'i'] (by decide) (by decide)
  exact ⟨(h1.1 (by decide) (by decide)).1, (h1.1 (by decide) (by decide)).2,
    h2.2 (by decide)⟩

/-- C6: the detail record created for a captured text counts the FULL
captured text — `characters` is its number of Unicode scalar values,
`words` its number of whitespace-delimited tokens — and stores the full
text as payload, while the (possibly trimmed/truncated) title only goes
to the list record. -/
theorem detail_counts_full_text (t1 t2 : Int) (ap : AppInfo) (c ttl : List Char)
    (s0 : CaptureState)
    (hreg : textFingerprint c ≠ s0.hashReg)
    (hnew : findItem s0.items (textFingerprint c) = none)
    (hdet : s0.details.find? (fun d => decide (d.id = textFingerprint c)) = none)
    (httl : mkTitle c = some ttl) :
    ∃ s1, textTick t1 t2 ap c s0 = some s1 ∧
      (∃ d, s1.details.find? (fun d => decide (d.id = textFingerprint c)) =
          some d ∧
        d.kind = ClipboardKind.Text c.length (splitWhitespaceCount c) c) ∧
      ∃ r, findItem s1.items (textFingerprint c) = some r ∧ r.title = ttl := by
  refine ⟨_, textTickCore_create _ t1 t2 ap c s0 ttl hreg hnew httl, ?_, ?_⟩
  · refine ⟨mkDetail (textFingerprint c) ap
      (ClipboardKind.Text c.length (splitWhitespaceCount c) c), ?_, rfl⟩
    show (s0.details ++ [_]).find? _ = _
    rw [List.find?_append, hdet]
    simp [mkDetail]
  · refine ⟨mkListItem (textFingerprint c) t1 t2 ttl
      (ClipboardKind.Text c.length (splitWhitespaceCount c) c), ?_, rfl⟩
    show findItem (s0.items ++ [_]) _ = _
    rw [findItem_append, hnew]
    simp [findItem, mkListItem]

/-- C6 witness: capturing `"  hello   world  "` stores a detail record
counting 17 scalars and 2 words of the full text, while the title is the
trimmed `"hello   world"`. -/
theorem detail_counts_full_text_witness :
    "  hello   world  ".toList.length = 17 ∧
    splitWhitespaceCount "  hello   world  ".toList = 2 ∧
    mkTitle "  hello   world  ".toList = some "hello   world".toList ∧
    (∃ s1, textTick 0 0 ⟨[], none⟩ "  hello   world  ".toList initialState =
        some s1 ∧
      (∃ d, s1.details.find?
          (fun d => decide
            (d.id = textFingerprint "  hello   world  ".toList)) = some d ∧
        d.kind = ClipboardKind.Text "  hello   world  ".toList.length
          (splitWhitespaceCount "  hello   world  ".toList)
          "  hello   world  ".toList) ∧
      ∃ r, findItem s1.items (textFingerprint "  hello   world  ".toList) =
          some r ∧
        r.title = "hello   world".toList) :=
  ⟨by decide, by decide, by decide,
    detail_counts_full_text 0 0 ⟨[], none⟩ "  hello   world  ".toList
      "hello   world".toList initialState (by decide) (by decide) (by decide)
      (by decide)⟩

/-- The asset files belonging to an entry: for an image entry its
thumbnail and the full image rebuilt from the thumbnail's directory. -/
def itemFiles (item : ClipboardListItem) : List FsPath :=
  match item.kind with
  | .Image thumbnail => [thumbnail, ⟨thumbnail.dir, pngName item.id⟩]
  | .Text => []

theorem filter_not_of_find?_none {α : Type _} {p : α → Bool} {l : List α}
    (h : l.find? p = none) : l.filter (fun a => !p a) = l := by
  rw [List.find?_eq_none] at h
  exact List.filter_eq_self.mpr fun a ha => by simp [h a ha]

theorem deleteModel_allOk_items (item : ClipboardListItem) (st : CaptureState) :
    (deleteModel envAllOk item st).state.items =
      st.items.filter fun r => !decide (r.id = item.id) := by
  simp only [deleteModel, deleteItemStep, deleteFilesStep, envAllOk, findItem]
  repeat' split
  all_goals simp_all [filter_not_of_find?_none]

theorem deleteModel_allOk_details (item : ClipboardListItem) (st : CaptureState) :
    (deleteModel envAllOk item st).state.details =
      st.details.filter fun d => !decide (d.id = item.id) := by
  simp only [deleteModel, deleteItemStep, deleteFilesStep, envAllOk, findItem]
  repeat' split
  all_goals simp_all [filter_not_of_find?_none]

theorem deleteModel_allOk_hashReg (item : ClipboardListItem) (st : CaptureState) :
    (deleteModel envAllOk item st).state.hashReg = st.hashReg := by
  simp only [deleteModel, deleteItemStep, deleteFilesStep, envAllOk, findItem]
  repeat' split
  all_goals rfl

theorem deleteModel_allOk_files (item : ClipboardListItem) (st : CaptureState) :
    (deleteModel envAllOk item st).removedFiles = itemFiles item := by
  simp only [deleteModel, deleteItemStep, deleteFilesStep, envAllOk, findItem]
  repeat' split
  all_goals simp_all [itemFiles]

/-- The ids the prune scan decides to delete: the ids of the snapshot
entries with `copied_last < now - age`. -/
def removedIds (age now : Int) (L : List ClipboardListItem) : List Nat :=
  (L.filter fun x => decide (x.copied_last < now - age)).map fun x => x.id

theorem removedIds_cons_pos {age now : Int} {x : ClipboardListItem}
    (hx : x.copied_last < now - age) (xs : List ClipboardListItem) :
    removedIds age now (x :: xs) = x.id :: removedIds age now xs := by
  simp [removedIds, List.filter_cons, hx]

theorem removedIds_cons_neg {age now : Int} {x : ClipboardListItem}
    (hx : ¬x.copied_last < now - age) (xs : List ClipboardListItem) :
    removedIds age now (x :: xs) = removedIds age now xs := by
  simp [removedIds, List.filter_cons, hx]

theorem prune_foldl (age now : Int) (L : List ClipboardListItem) :
    ∀ (s : CaptureState) (fs : List FsPath),
      (L.foldl (pruneStep age now) (s, fs)).1.items =
        s.items.filter (fun r => decide (r.id ∉ removedIds age now L)) ∧
      (L.foldl (pruneStep age now) (s, fs)).1.details =
        s.details.filter (fun d => decide (d.id ∉ removedIds age now L)) ∧
      (L.foldl (pruneStep age now) (s, fs)).2 =
        fs ++ (L.filter fun x => decide (x.copied_last < now - age)).flatMap
          itemFiles := by
  induction L with
  | nil =>
      intro s fs
      refine ⟨?_, ?_, ?_⟩ <;> simp [removedIds]
  | cons x xs ih =>
      intro s fs
      by_cases hx : x.copied_last < now - age
      · simp only [List.foldl_cons, pruneStep, if_pos hx]
        obtain ⟨ih1, ih2, ih3⟩ := ih (deleteModel envAllOk x s).state
          (fs ++ (deleteModel envAllOk x s).removedFiles)
        refine ⟨?_, ?_, ?_⟩
        · rw [ih1, deleteModel_allOk_items, List.filter_filter,
            removedIds_cons_pos hx]
          refine List.filter_congr fun a ha => ?_
          by_cases h1 : a.id = x.id <;>
            by_cases h2 : a.id ∈ removedIds age now xs <;>
            simp [h1, h2, List.mem_cons]
        · rw [ih2, deleteModel_allOk_details, List.filter_filter,
            removedIds_cons_pos hx]
          refine List.filter_congr fun a ha => ?_
          by_cases h1 : a.id = x.id <;>
            by_cases h2 : a.id ∈ removedIds age now xs <;>
            simp [h1, h2, List.mem_cons]
        · rw [ih3, deleteModel_allOk_files, List.filter_cons,
            if_pos (by simpa using hx)]
          simp [List.append_assoc]
      · simp only [List.foldl_cons, pruneStep, if_neg hx]
        obtain ⟨ih1, ih2, ih3⟩ := ih s fs
        refine ⟨?_, ?_, ?_⟩
        · rw [removedIds_cons_neg hx, ih1]
        · rw [removedIds_cons_neg hx, ih2]
        · rw [ih3, List.filter_cons, if_neg (by simpa using hx)]

/-- C7 counterexample: `prune(0)` does not remove every entry.  The scan
condition is the strict `copied_last < now - age`, so an entry whose
`copied_last` equals the prune-time `now` (both 5 here) survives a
`prune(0)` with its records intact and no file deleted. -/
theorem prune_zero_boundary_cex :
    (pruneModel 0 5 ⟨0, [⟨9, ['t'], 5, 5, .Text, 1⟩], []⟩).1.items =
      [⟨9, ['t'], 5, 5, .Text, 1⟩] ∧
    (pruneModel 0 5 ⟨0, [⟨9, ['t'], 5, 5, .Text, 1⟩], []⟩).2 = [] := by
  decide

/-- C7 amended: `prune(max_age)` deletes exactly the entries whose
`copied_last` is strictly older than `now - max_age` (assuming the
stored ids are distinct, as the natural-id keyed storage guarantees):
the surviving list records are precisely those failing the strict test,
the detail records with a removed id are removed with them, and the
files removed from disk are precisely the thumbnail and full image of
every removed image entry.  In particular an entry 8 days old is removed
by `prune(7 days)` and one 6 days old is retained, and `prune(0)`
removes exactly the entries whose `copied_last` is strictly in the past
— an entry timestamped at the prune instant itself survives. -/
theorem prune_exact_amended (age now : Int) (st : CaptureState)
    (hnd : (st.items.map fun r => r.id).Nodup) :
    (pruneModel age now st).1.items =
      st.items.filter (fun r => !decide (r.copied_last < now - age)) ∧
    (pruneModel age now st).1.details =
      st.details.filter (fun d => decide (d.id ∉ removedIds age now st.items)) ∧
    (pruneModel age now st).2 =
      (st.items.filter fun x => decide (x.copied_last < now - age)).flatMap
        itemFiles := by
  obtain ⟨h1, h2, h3⟩ := prune_foldl age now st.items st []
  simp only [pruneModel]
  refine ⟨?_, h2, by simpa using h3⟩
  rw [h1]
  refine List.filter_congr fun a ha => ?_
  by_cases hc : a.copied_last < now - age
  · have hmem : a.id ∈ removedIds age now st.items := by
      simp only [removedIds, List.mem_map, List.mem_filter]
      exact ⟨a, ⟨ha, by simpa using hc⟩, rfl⟩
    simp [hmem, hc]
  · have hnin : a.id ∉ removedIds age now st.items := by
      intro hmem
      simp only [removedIds, List.mem_map, List.mem_filter] at hmem
      obtain ⟨x, ⟨hxmem, hxc⟩, hxid⟩ := hmem
      have hxa : x = a := List.inj_on_of_nodup_map hnd hxmem ha hxid
      rw [hxa] at hxc
      exact hc (by simpa using hxc)
    simp [hnin, hc]

/-- Concrete store for the C7 witness: an image entry last copied 8 days
(691200 s) before the prune and a text entry last copied 6 days
(518400 s) before it. -/
def c7Thumb : FsPath := ⟨[['c']], thumbPngName 11⟩

def c7Old : ClipboardListItem :=
  ⟨11, ['o'], -691200, -691200, .Image c7Thumb, 1⟩

def c7Keep : ClipboardListItem := ⟨12, ['k'], -518400, -518400, .Text, 1⟩

def c7OldDetail : ClipboardDetail :=
  ⟨11, ['U'], none, .Image 2 2 c7Thumb ⟨[['c']], pngName 11⟩⟩

def c7KeepDetail : ClipboardDetail := ⟨12, ['U'], none, .Text 1 1 ['k']⟩

def c7State : CaptureState :=
  ⟨0, [c7Old, c7Keep], [c7OldDetail, c7KeepDetail]⟩

/-- C7 amended witness: `prune(7 days)` at time 0 removes the 8-day-old
image entry — both its records and both its files — and retains the
6-day-old entry. -/
theorem prune_exact_amended_witness :
    (pruneModel (7 * 86400) 0 c7State).1.items = [c7Keep] ∧
    (pruneModel (7 * 86400) 0 c7State).1.details = [c7KeepDetail] ∧
    (pruneModel (7 * 86400) 0 c7State).2 = [c7Thumb, ⟨[['c']], pngName 11⟩] := by
  have h := prune_exact_amended (7 * 86400) 0 c7State (by decide)
  exact ⟨h.1.trans (by decide), h.2.1.trans (by decide), h.2.2.trans (by decide)⟩

/-- C8: the fingerprint is deterministic and stable across process runs.
`DefaultHasher::new()` constructs SipHash-1-3 with the fixed keys
`(0, 0)` instead of consuming the per-process random state, so two
hashing invocations — in the same run or in two runs with arbitrary
process seeds — yield the same 64-bit value for identical content, for
both the text and the image-bytes fingerprint. -/
theorem fingerprint_seed_independent (s1 s2 : ProcessSeed) (cs : List Char)
    (bs : List Nat) :
    textFingerprintInRun s1 cs = textFingerprintInRun s2 cs ∧
    bytesFingerprintInRun s1 bs = bytesFingerprintInRun s2 bs ∧
    textFingerprintInRun s1 cs = textFingerprint cs ∧
    bytesFingerprintInRun s1 bs = bytesFingerprint bs :=
  ⟨rfl, rfl, rfl, rfl⟩

/-- C9 counterexample: content whose fingerprint happens to equal the
sentinel value 0 held by the `last_hash` register at loop start is NOT
captured on its first observation: the dedup guard compares the
fingerprint against the register, finds them equal, and skips the tick,
so no record is created even though the store does not contain the
content. -/
theorem sentinel_fingerprint_skipped_cex :
    initialState.hashReg = 0 ∧ initialState.items = [] ∧
    textTickCore 0 1 2 ⟨[], none⟩ ['a'] initialState = some initialState := by
  decide

/-- C9 amended: a first-observed content (no record under its
fingerprint in the store) is captured and gets a record on that tick
PROVIDED its fingerprint differs from the current value of the
`last_hash` register; content whose fingerprint equals the register
value — in particular the sentinel 0 at loop start — is skipped. -/
theorem first_observation_creates_amended (fp : Nat) (t1 t2 : Int)
    (ap : AppInfo) (c ttl : List Char) (s : CaptureState)
    (hreg : fp ≠ s.hashReg) (hnew : countId s.items fp = 0)
    (httl : mkTitle c = some ttl) :
    ∃ s1, textTickCore fp t1 t2 ap c s = some s1 ∧
      countId s1.items fp = 1 ∧ s1.hashReg = fp := by
  refine ⟨_, textTickCore_create fp t1 t2 ap c s ttl hreg
    (findItem_eq_none hnew) httl, ?_, rfl⟩
  show countId (s.items ++ [mkListItem fp t1 t2 ttl _]) fp = 1
  rw [countId_append, hnew]
  simp [countId, mkListItem]

/-- C9 amended witness: a first observation whose fingerprint 1 differs
from the sentinel register creates exactly one record. -/
theorem first_observation_creates_amended_witness :
    ∃ s1, textTickCore 1 0 0 ⟨[], none⟩ ['a'] initialState = some s1 ∧
      countId s1.items 1 = 1 ∧ s1.hashReg = 1 :=
  first_observation_creates_amended 1 0 0 ⟨[], none⟩ ['a'] ['a'] initialState
    (by decide) (by decide) (by decide)

/-- C10: the per-tick text classification and title construction is not
total — `String::truncate (25)` panics when byte 25 of the title source
is not a character boundary.  Thirteen copies of the two-byte scalar `é`
(26 UTF-8 bytes) hit the panic: the title construction aborts (`none`)
and the panic propagates out of the whole capture tick, terminating the
loop. -/
theorem title_truncate_panic_bug :
    mkTitle (List.replicate 13 'é') = none ∧
    textTick 0 0 ⟨[], none⟩ (List.replicate 13 'é') initialState = none := by
  decide

end Loungy
